import Mathlib

/-!
Verification of the embedding-generation pipeline of `rust-embedding-lambda`.

The development shallowly embeds the three source modules:

* `src/error.rs`    — the `EmbedError` enum, its client/server classification,
  HTTP status mapping and user-facing message policy;
* `src/embedder.rs` — the `Embedder` pipeline: dimension validation,
  tokenization, sequence-length validation, inference invocation, masked mean
  pooling, Matryoshka truncation and L2 normalization;
* `src/http_handler.rs` — the request handler: size / empty-text / text-length
  validation, poisoned-lock recovery, and response construction.

Modelling conventions:

* 32-bit floats are modelled as real numbers (`ℝ`): the claims under scrutiny
  are about the algebraic structure of the pipeline, with floating-point
  rounding explicitly ignored ("within floating-point tolerance").
* The external tokenizer and the ONNX inference engine are opaque
  dependencies; an `Embedder` is modelled by the two functions it owns
  (`tokenize`, wrapping the loaded tokenizer, and `run`, wrapping the loaded
  session).  Both are deterministic, matching a fixed loaded model.
* A Rust `String` is modelled by the list of the UTF-8 byte sizes of its
  characters (`Text`): the handler only ever inspects `is_empty()` and
  `len()` (= total byte count), and the spec also speaks about the character
  count (= list length); character identities are irrelevant to every claim.
* An `ndarray` view is modelled as a total function `ℕ → ℕ → ℕ → ℝ` (zero
  outside the stored data) together with its shape, carried separately.
-/

namespace RustEmbeddingLambda

/-! ## `src/error.rs` -/

/-- The error enum `EmbedError` (src/error.rs, lines 4-57). -/
inductive EmbedError where
  | InvalidDimension (size : ℕ) (valid : List ℕ)
  | SequenceTooLong (got max : ℕ)
  | EmptyInput
  | TextTooLong (got max : ℕ)
  | TokenizerLoad (path reason : String)
  | Tokenization (msg : String)
  | OnnxRuntime (msg : String)
  | ArrayShape (msg : String)
  | MutexPoisoned
  | Internal (msg : String)
  deriving DecidableEq

/-- Debug-style rendering of a `Vec<usize>`, as produced by the `{:?}`
format specifier (e.g. `[768, 512, 256, 128]`). -/
def vecRepr (l : List ℕ) : String :=
  "[" ++ String.intercalate ", " (l.map toString) ++ "]"

/-- The `Display` implementation derived by `thiserror` from the
`#[error(...)]` attributes on each variant (src/error.rs). -/
def EmbedError.displayString : EmbedError → String
  | .InvalidDimension size valid =>
      "Invalid embedding size: " ++ toString size ++ ". Must be one of: " ++ vecRepr valid
  | .SequenceTooLong got max =>
      "Tokenized sequence exceeds maximum length of " ++ toString max ++
        " tokens (got " ++ toString got ++ ")"
  | .EmptyInput => "Text input cannot be empty"
  | .TextTooLong got max =>
      "Text exceeds maximum length of " ++ toString max ++ " characters (got " ++
        toString got ++ ")"
  | .TokenizerLoad path reason => "Failed to load tokenizer from " ++ path ++ ": " ++ reason
  | .Tokenization msg => "Tokenization failed: " ++ msg
  | .OnnxRuntime msg => "ONNX Runtime error: " ++ msg
  | .ArrayShape msg => "Array shape error: " ++ msg
  | .MutexPoisoned => "Internal error: shared resource poisoned"
  | .Internal msg => "Internal server error: " ++ msg

/-- Method `EmbedError::is_client_error` (src/error.rs, lines 61-69). -/
def EmbedError.is_client_error : EmbedError → Bool
  | .InvalidDimension _ _ | .SequenceTooLong _ _ | .EmptyInput | .TextTooLong _ _ => true
  | _ => false

/-- Method `EmbedError::status_code` (src/error.rs, lines 72-78). -/
def EmbedError.status_code (e : EmbedError) : ℕ :=
  if e.is_client_error then 400 else 500

/-- Method `EmbedError::user_message` (src/error.rs, lines 81-109).  The Rust code
branches on `cfg!(debug_assertions)`; the build flavour is made an explicit
parameter `debug` (`true` = development build, `false` = production build). -/
def EmbedError.user_message (e : EmbedError) (debug : Bool) : String :=
  match e with
  | .InvalidDimension size valid =>
      "Invalid embedding size: " ++ toString size ++ ". Must be one of: " ++ vecRepr valid
  | .SequenceTooLong got max =>
      "Text is too long: " ++ toString got ++ " tokens (max: " ++ toString max ++ ")"
  | .EmptyInput => "Text input cannot be empty"
  | .TextTooLong got max =>
      "Text is too long: " ++ toString got ++ " characters (max: " ++ toString max ++ ")"
  | .Tokenization msg => "Failed to process text: " ++ msg
  | e' =>
      if debug then e'.displayString
      else "An internal error occurred while processing your request"

/-! ## `src/embedder.rs` -/

/-- Constant `VALID_DIMENSIONS` (src/embedder.rs, line 6). -/
def VALID_DIMENSIONS : List ℕ := [768, 512, 256, 128]

/-- Constant `MAX_SEQUENCE_LENGTH` (src/embedder.rs, line 10). -/
def MAX_SEQUENCE_LENGTH : ℕ := 8192

/-- A Rust `String`, modelled as the list of the UTF-8 byte sizes of its
characters: `length` is the character count and `sum` is `String::len()`
(the UTF-8 byte count). -/
abbrev Text := List ℕ

/-- The tensor produced by one forward pass of the ONNX session
(`outputs[0].try_extract_tensor::<f32>()`, src/embedder.rs, lines 125-128):
a shape `[batch_size, seq_len_out, hidden_dim]` plus the flat data buffer. -/
structure RunOutput where
  batch_size : ℕ
  seq_len_out : ℕ
  hidden_dim : ℕ
  data : List ℝ

/-- The 3-dimensional view `ndarray::ArrayView3::from_shape(...)` takes of the
flat buffer (C order): entry `(b, i, j)` of the view, zero out of range. -/
noncomputable def RunOutput.view (out : RunOutput) : ℕ → ℕ → ℕ → ℝ :=
  fun b i j =>
    out.data.getD (b * (out.seq_len_out * out.hidden_dim) + i * out.hidden_dim + j) 0

/-- Structure `Embedder` (src/embedder.rs, lines 16-19).  The two loaded
external resources are modelled by the deterministic functions the pipeline
calls on them:

* `tokenize` is `Embedder::tokenize` (lines 57-79): the prompt template
  `"title: none | text: ..."` is applied and the external tokenizer invoked;
  on success it yields equal-length `input_ids` and `attention_mask`
  sequences, on failure the tokenizer's message (wrapped into
  `EmbedError::Tokenization` by the caller);
* `run` is `self.session.run(...)` followed by tensor extraction
  (lines 118-128): on failure the engine's message (wrapped into
  `EmbedError::OnnxRuntime`). -/
structure Embedder where
  tokenize : Text → Except String (List ℤ × List ℤ)
  run : List ℤ → List ℤ → Except String RunOutput

/-- The L2 norm computed on src/embedder.rs line 190:
`embedding.iter().map(|x| x * x).sum::<f32>().sqrt()`. -/
noncomputable def l2norm (embedding : List ℝ) : ℝ :=
  Real.sqrt ((embedding.map fun x => x * x).sum)

/-- Method `Embedder::normalize` (src/embedder.rs, lines 189-197). -/
noncomputable def Embedder.normalize (embedding : List ℝ) : List ℝ :=
  if l2norm embedding > 0 then embedding.map fun x => x / l2norm embedding
  else embedding

/-- Method `Embedder::mean_pooling` (src/embedder.rs, lines 152-183).  The
`ArrayView3` argument is the shape `(1, n, d)` (carried as the explicit
arguments `n`, `d`, exactly the `seq_len_out` and `hidden_dim` the caller
read off the output shape) together with the entries `hidden_states`.
The Rust `Result` return is vestigial — the body never produces an error —
so the model returns the list directly. -/
noncomputable def Embedder.mean_pooling (n d : ℕ) (hidden_states : ℕ → ℕ → ℕ → ℝ)
    (attention_mask : List ℤ) : List ℝ :=
  -- states_2d = hidden_states.index_axis(Axis(0), 0) : shape [n, d]
  let states_2d : ℕ → ℕ → ℝ := hidden_states 0
  -- mask_f32 / mask_1d: the mask converted to floats
  let mask_f32 : List ℝ := attention_mask.map fun x : ℤ => (x : ℝ)
  -- count = mask_1d.sum()
  let count : ℝ := mask_f32.sum
  -- masked_states = &states_2d * &mask_col (row i scaled by mask[i])
  let masked : ℕ → ℕ → ℝ := fun i j => mask_f32.getD i 0 * states_2d i j
  -- sum = masked_states.sum_axis(Axis(0)) : length d
  let s : Fin d → ℝ := fun j => ∑ i ∈ Finset.range n, masked i j
  -- mean = if count > 0 { sum / count } else { sum }; then .to_vec()
  if count > 0 then List.ofFn fun j => s j / count else List.ofFn s

/-- Method `Embedder::embed` (src/embedder.rs, lines 89-145). -/
noncomputable def Embedder.embed (E : Embedder) (text : Text) (size : ℕ) :
    Except EmbedError (List ℝ) :=
  -- `if !VALID_DIMENSIONS.contains(&size) { return Err(InvalidDimension) }`
  if size ∈ VALID_DIMENSIONS then
    -- Step 1: tokenize the input
    match E.tokenize text with
    | .error e => .error (.Tokenization e)
    | .ok (input_ids, attention_mask) =>
      -- validate sequence length (seq_len = input_ids.len())
      if input_ids.length > MAX_SEQUENCE_LENGTH then
        .error (.SequenceTooLong input_ids.length MAX_SEQUENCE_LENGTH)
      else
        -- Steps 2-4: run inference and extract the output tensor
        match E.run input_ids attention_mask with
        | .error e => .error (.OnnxRuntime e)
        | .ok out =>
          -- ArrayView3::from_shape fails unless the buffer matches the shape
          if out.data.length = out.batch_size * out.seq_len_out * out.hidden_dim then
            -- Steps 5-7: mean pooling, Matryoshka truncation, L2 normalization
            .ok (Embedder.normalize
              ((Embedder.mean_pooling out.seq_len_out out.hidden_dim out.view
                  attention_mask).take size))
          else .error (.ArrayShape "incompatible shapes")
  else .error (.InvalidDimension size VALID_DIMENSIONS)

/-! ## `src/http_handler.rs` -/

/-- Constant `MAX_TEXT_LENGTH` (src/http_handler.rs, line 10). -/
def MAX_TEXT_LENGTH : ℕ := 100000

/-- Structure `EmbedRequest` (src/http_handler.rs, lines 13-20), after JSON
deserialization (which is external `serde` code; a missing `size` field has
already been filled with the default 768). -/
structure EmbedRequest where
  text : Text
  size : ℕ

/-- Structure `EmbedResponse` (src/http_handler.rs, lines 27-33). -/
structure EmbedResponse where
  embedding : List ℝ
  size : ℕ

/-- State of the shared `Mutex<Embedder>` at acquisition time: healthy, or
poisoned by a previous panicking holder. -/
inductive LockState where
  | healthy
  | poisoned
  deriving DecidableEq

/-- Result of `Mutex::lock`: `Ok(guard)` or `Err(PoisonError)`, the poison
error still carrying the guard (recoverable through `into_inner()`). -/
inductive LockResult (α : Type) where
  | ok (guard : α)
  | poisonErr (inner : α)

/-- Call `embedder.lock()` (src/http_handler.rs, line 91). -/
def mutexLock (E : Embedder) : LockState → LockResult Embedder
  | .healthy => .ok E
  | .poisoned => .poisonErr E

/-- Which branch of `function_handler` (src/http_handler.rs, lines 45-129)
produced the response, after JSON parsing succeeded:

* `invalidSize` — the inline size check (lines 59-67), a direct
  `error_response(400, ...)` not routed through `EmbedError`;
* `embedError` — a constructed `EmbedError` routed through
  `error_from_embed_error` (empty text, text too long, or a failure
  returned by `Embedder::embed`);
* `ok` — the embedding was generated. -/
inductive HandlerOutcome where
  | invalidSize (size : ℕ)
  | embedError (e : EmbedError)
  | ok (embedding : List ℝ)

/-- The decision logic of `function_handler` (src/http_handler.rs,
lines 45-119): which branch runs and what it carries. -/
noncomputable def handlerOutcome (E : Embedder) (st : LockState)
    (req : EmbedRequest) : HandlerOutcome :=
  -- `if !VALID_DIMENSIONS.contains(&request.size)` (lines 59-67)
  if req.size ∈ VALID_DIMENSIONS then
    -- `if request.text.is_empty()` (lines 70-74)
    if req.text.isEmpty then .embedError .EmptyInput
    -- `if request.text.len() > MAX_TEXT_LENGTH` (lines 77-84); `len()` is
    -- the UTF-8 byte count, i.e. `req.text.sum` in this model
    else if req.text.sum > MAX_TEXT_LENGTH then
      .embedError (.TextTooLong req.text.sum MAX_TEXT_LENGTH)
    else
      -- lock acquisition with poison recovery (lines 89-97)
      let guard : Embedder :=
        match mutexLock E st with
        | .ok g => g
        | .poisonErr poisoned => poisoned
      match guard.embed req.text req.size with
      | .ok emb => .ok emb
      | .error e => .embedError e
  else .invalidSize req.size

/-- An HTTP response: an error response built by `error_response`, or the
200 response with a serialized `EmbedResponse` body. -/
inductive HttpResponse where
  | response (status : ℕ) (body : String)
  | okJson (resp : EmbedResponse)

/-- Handler `function_handler` (src/http_handler.rs, lines 45-129) as the response it
returns, composed from the branch taken:

* invalid size → `error_response(400, format!("Invalid size: ..."))`;
* an `EmbedError` → `error_from_embed_error` =
  `error_response(err.status_code(), err.user_message())`;
* success → 200 with `EmbedResponse { size: embedding.len(), embedding }`. -/
noncomputable def functionHandler (E : Embedder) (st : LockState) (debug : Bool)
    (req : EmbedRequest) : HttpResponse :=
  match handlerOutcome E st req with
  | .invalidSize s =>
      .response 400
        ("Invalid size: " ++ toString s ++ ". Must be one of: " ++ vecRepr VALID_DIMENSIONS)
  | .embedError e => .response e.status_code (e.user_message debug)
  | .ok emb => .okJson { embedding := emb, size := emb.length }

/-! ## Basic facts about `l2norm` and `Embedder.normalize` -/

lemma sumSq_nonneg (e : List ℝ) : 0 ≤ (e.map fun x => x * x).sum := by
  refine List.sum_nonneg ?h
  intro x hx
  obtain ⟨y, _, rfl⟩ := List.mem_map.mp hx
  exact mul_self_nonneg y

lemma l2norm_nonneg (e : List ℝ) : 0 ≤ l2norm e := Real.sqrt_nonneg _

lemma sumSq_eq_zero_iff (e : List ℝ) :
    (e.map fun x => x * x).sum = 0 ↔ ∀ x ∈ e, x = 0 := by
  induction e with
  | nil => simp
  | cons a t ih =>
    simp only [List.map_cons, List.sum_cons, List.mem_cons]
    rw [add_eq_zero_iff_of_nonneg (mul_self_nonneg a) (sumSq_nonneg t),
      mul_self_eq_zero, ih]
    constructor
    · rintro ⟨rfl, h⟩ x (rfl | hx)
      · rfl
      · exact h x hx
    · intro h
      exact ⟨h a (Or.inl rfl), fun x hx => h x (Or.inr hx)⟩

lemma l2norm_eq_zero_iff (e : List ℝ) : l2norm e = 0 ↔ ∀ x ∈ e, x = 0 := by
  rw [l2norm, Real.sqrt_eq_zero']
  constructor
  · intro h
    exact (sumSq_eq_zero_iff e).mp (le_antisymm h (sumSq_nonneg e))
  · intro h
    exact le_of_eq ((sumSq_eq_zero_iff e).mpr h)

lemma sumSq_map_div (e : List ℝ) (c : ℝ) :
    ((e.map fun x => x / c).map fun x => x * x).sum =
      ((e.map fun x => x * x).sum) * (c⁻¹ * c⁻¹) := by
  induction e with
  | nil => simp
  | cons a t ih =>
    simp only [List.map_cons, List.sum_cons, ih]
    field_simp

lemma l2norm_map_div (e : List ℝ) (c : ℝ) (hc : 0 < c) :
    l2norm (e.map fun x => x / c) = l2norm e / c := by
  rw [l2norm, sumSq_map_div, Real.sqrt_mul (sumSq_nonneg e),
    Real.sqrt_mul_self (by positivity : (0:ℝ) ≤ c⁻¹)]
  rw [div_eq_mul_inv, l2norm]

lemma normalize_of_pos {e : List ℝ} (h : 0 < l2norm e) :
    Embedder.normalize e = e.map fun x => x / l2norm e := by
  rw [Embedder.normalize, if_pos h]

lemma normalize_of_zero {e : List ℝ} (h : l2norm e = 0) : Embedder.normalize e = e := by
  rw [Embedder.normalize, if_neg (by rw [h]; exact lt_irrefl 0)]

lemma l2norm_normalize {e : List ℝ} (h : 0 < l2norm e) :
    l2norm (Embedder.normalize e) = 1 := by
  rw [normalize_of_pos h, l2norm_map_div e _ h, div_self (ne_of_gt h)]

lemma map_div_self_of_zero {e : List ℝ} (c : ℝ) (h : ∀ x ∈ e, x = 0) :
    (e.map fun x => x / c) = e := by
  have he : e.map (fun x => x / c) = e.map id := by
    refine List.map_congr_left ?h
    intro x hx
    rw [h x hx]
    simp
  rw [he, List.map_id]

lemma normalize_length (e : List ℝ) : (Embedder.normalize e).length = e.length := by
  rw [Embedder.normalize]
  split
  · rw [List.length_map]
  · rfl

/-- Dividing every entry by a positive constant does not change the
normalized vector. -/
lemma normalize_map_div (u : List ℝ) (c : ℝ) (hc : 0 < c) :
    Embedder.normalize (u.map fun x => x / c) = Embedder.normalize u := by
  rcases lt_or_eq_of_le (l2norm_nonneg u) with hup | hup
  · have hmapnorm : l2norm (u.map fun x => x / c) = l2norm u / c := l2norm_map_div u c hc
    have hpos : 0 < l2norm (u.map fun x => x / c) := by
      rw [hmapnorm]
      exact div_pos hup hc
    rw [normalize_of_pos hpos, normalize_of_pos hup, hmapnorm, List.map_map]
    refine List.map_congr_left ?h
    intro x _
    have hc0 : c ≠ 0 := ne_of_gt hc
    have hu0 : l2norm u ≠ 0 := ne_of_gt hup
    show x / c / (l2norm u / c) = x / l2norm u
    field_simp
  · have hzero : ∀ x ∈ u, x = 0 := (l2norm_eq_zero_iff u).mp hup.symm
    rw [map_div_self_of_zero c hzero]

/-- Normalizing a prefix commutes with normalizing first: the Matryoshka
consistency core lemma. -/
lemma normalize_take_normalize (v : List ℝ) (s m : ℕ) (hsm : s ≤ m) :
    Embedder.normalize (v.take s) =
      Embedder.normalize ((Embedder.normalize (v.take m)).take s) := by
  have htt : (v.take m).take s = v.take s := by
    rw [List.take_take, min_eq_left hsm]
  rcases lt_or_eq_of_le (l2norm_nonneg (v.take m)) with hw | hw
  · rw [normalize_of_pos hw, List.map_take, List.take_take, min_eq_left hsm,
      ← List.map_take, normalize_map_div _ _ hw]
  · rw [normalize_of_zero hw.symm, htt]

/-! ## Inversion lemmas for `Embedder.embed` -/

/-- A successful `embed` call pins down every stage of the pipeline: a valid
size, a successful tokenization within the length bound, a successful
inference call with a consistent output shape, and the returned vector is
the normalized `size`-prefix of the pooled vector. -/
lemma embed_ok_elim (E : Embedder) (t : Text) (s : ℕ) (v : List ℝ)
    (h : E.embed t s = .ok v) :
    s ∈ VALID_DIMENSIONS ∧ ∃ ids mask out,
      E.tokenize t = .ok (ids, mask) ∧ ids.length ≤ MAX_SEQUENCE_LENGTH ∧
      E.run ids mask = .ok out ∧
      out.data.length = out.batch_size * out.seq_len_out * out.hidden_dim ∧
      v = Embedder.normalize
        ((Embedder.mean_pooling out.seq_len_out out.hidden_dim out.view
            mask).take s) := by
  by_cases hs : s ∈ VALID_DIMENSIONS
  · rw [Embedder.embed, if_pos hs] at h
    cases htok : E.tokenize t with
    | error e =>
      rw [htok] at h
      exact absurd h (by simp)
    | ok p =>
      obtain ⟨ids, mask⟩ := p
      rw [htok] at h
      simp only [] at h
      by_cases hlen : ids.length > MAX_SEQUENCE_LENGTH
      · rw [if_pos hlen] at h
        exact absurd h (by simp)
      · rw [if_neg hlen] at h
        cases hrun : E.run ids mask with
        | error e =>
          rw [hrun] at h
          exact absurd h (by simp)
        | ok out =>
          rw [hrun] at h
          simp only [] at h
          by_cases hsh :
              out.data.length = out.batch_size * out.seq_len_out * out.hidden_dim
          · rw [if_pos hsh] at h
            refine ⟨hs, ids, mask, out, rfl, le_of_not_lt hlen, hrun, hsh, ?_⟩
            simp only [Except.ok.injEq] at h
            exact h.symm
          · rw [if_neg hsh] at h
            exact absurd h (by simp)
  · rw [Embedder.embed, if_neg hs] at h
    exact absurd h (by simp)

/-- Method `Embedder::embed` only ever constructs one of five error variants:
`InvalidDimension`, `Tokenization`, `SequenceTooLong`, `OnnxRuntime`,
`ArrayShape`.  In particular it never raises `EmptyInput`, `TextTooLong` or
`MutexPoisoned`. -/
lemma embed_error_cases (E : Embedder) (t : Text) (s : ℕ) (e : EmbedError)
    (h : E.embed t s = .error e) :
    (∃ sz valid, e = .InvalidDimension sz valid) ∨ (∃ msg, e = .Tokenization msg) ∨
    (∃ got mx, e = .SequenceTooLong got mx) ∨ (∃ msg, e = .OnnxRuntime msg) ∨
    (∃ msg, e = .ArrayShape msg) := by
  by_cases hs : s ∈ VALID_DIMENSIONS
  · rw [Embedder.embed, if_pos hs] at h
    cases htok : E.tokenize t with
    | error msg =>
      rw [htok] at h
      simp only [Except.error.injEq] at h
      exact Or.inr (Or.inl ⟨msg, h.symm⟩)
    | ok p =>
      obtain ⟨ids, mask⟩ := p
      rw [htok] at h
      simp only [] at h
      by_cases hlen : ids.length > MAX_SEQUENCE_LENGTH
      · rw [if_pos hlen] at h
        simp only [Except.error.injEq] at h
        exact Or.inr (Or.inr (Or.inl ⟨ids.length, MAX_SEQUENCE_LENGTH, h.symm⟩))
      · rw [if_neg hlen] at h
        cases hrun : E.run ids mask with
        | error msg =>
          rw [hrun] at h
          simp only [Except.error.injEq] at h
          exact Or.inr (Or.inr (Or.inr (Or.inl ⟨msg, h.symm⟩)))
        | ok out =>
          rw [hrun] at h
          simp only [] at h
          by_cases hsh :
              out.data.length = out.batch_size * out.seq_len_out * out.hidden_dim
          · rw [if_pos hsh] at h
            exact absurd h (by simp)
          · rw [if_neg hsh] at h
            simp only [Except.error.injEq] at h
            exact Or.inr (Or.inr (Or.inr (Or.inr ⟨_, h.symm⟩)))
  · rw [Embedder.embed, if_neg hs] at h
    simp only [Except.error.injEq] at h
    exact Or.inl ⟨s, VALID_DIMENSIONS, h.symm⟩

/-! ## Concrete embedders used to instantiate theorems -/

/-- A degenerate concrete embedder (one token, hidden dimension 1, hidden
state zero) used to instantiate theorems that carry hypotheses. -/
noncomputable def oneTokenEmbedder : Embedder where
  tokenize := fun _ => .ok ([0], [1])
  run := fun _ _ => .ok ⟨1, 1, 1, [0]⟩

lemma l2norm_zero_singleton : l2norm [(0:ℝ)] = 0 := by
  rw [l2norm]
  norm_num

lemma oneTokenEmbedder_pool :
    Embedder.mean_pooling 1 1 (RunOutput.view ⟨1, 1, 1, [0]⟩) [1] = [(0:ℝ)] := by
  rw [Embedder.mean_pooling]
  norm_num [RunOutput.view, List.ofFn_succ, Finset.sum_range_one]

lemma oneTokenEmbedder_embed (s : ℕ) (hs : s ∈ VALID_DIMENSIONS) :
    oneTokenEmbedder.embed [1] s = .ok [(0:ℝ)] := by
  have h1 : 1 ≤ s := by
    have hcases : s = 768 ∨ s = 512 ∨ s = 256 ∨ s = 128 := by
      simpa [VALID_DIMENSIONS] using hs
    rcases hcases with rfl | rfl | rfl | rfl <;> norm_num
  rw [Embedder.embed, if_pos hs]
  show (match (Except.ok ([0], [1]) : Except String (List ℤ × List ℤ)) with
    | .error e => .error (.Tokenization e)
    | .ok (input_ids, attention_mask) =>
      if input_ids.length > MAX_SEQUENCE_LENGTH then
        Except.error (EmbedError.SequenceTooLong input_ids.length MAX_SEQUENCE_LENGTH)
      else
        match oneTokenEmbedder.run input_ids attention_mask with
        | .error e => .error (.OnnxRuntime e)
        | .ok out =>
          if out.data.length = out.batch_size * out.seq_len_out * out.hidden_dim then
            .ok (Embedder.normalize
              ((Embedder.mean_pooling out.seq_len_out out.hidden_dim out.view
                  attention_mask).take s))
          else .error (.ArrayShape "incompatible shapes"))
      = Except.ok [(0:ℝ)]
  simp only []
  rw [if_neg (by norm_num [MAX_SEQUENCE_LENGTH])]
  show (match (Except.ok ⟨1, 1, 1, [0]⟩ : Except String RunOutput) with
    | .error e => .error (.OnnxRuntime e)
    | .ok out =>
      if out.data.length = out.batch_size * out.seq_len_out * out.hidden_dim then
        Except.ok (Embedder.normalize
          ((Embedder.mean_pooling out.seq_len_out out.hidden_dim out.view [1]).take s))
      else .error (.ArrayShape "incompatible shapes"))
      = Except.ok [(0:ℝ)]
  simp only []
  rw [if_pos (by norm_num)]
  rw [oneTokenEmbedder_pool, List.take_of_length_le (by simpa using h1),
    normalize_of_zero l2norm_zero_singleton]

/-! ## Claim theorems -/

/-- C1. For every input text and every valid size in
`{768, 512, 256, 128}`, the Output Vector `embed` returns for that size
equals the L2-normalization of the first `size` elements of the Output
Vector returned for size 768 on the same text (Matryoshka consistency),
the tokenizer and model outputs being the same deterministic functions in
both runs. -/
theorem matryoshka_consistency (E : Embedder) (t : Text) (s : ℕ)
    (v768 vs : List ℝ) (hs : s ∈ VALID_DIMENSIONS)
    (h768 : E.embed t 768 = .ok v768) (hvs : E.embed t s = .ok vs) :
    vs = Embedder.normalize (v768.take s) := by
  obtain ⟨-, ids, mask, out, htok, hlen, hrun, hsh, hv⟩ :=
    embed_ok_elim E t 768 v768 h768
  obtain ⟨-, ids2, mask2, out2, htok2, hlen2, hrun2, hsh2, hv2⟩ :=
    embed_ok_elim E t s vs hvs
  rw [htok] at htok2
  injection htok2 with hp
  injection hp with hids hmask
  subst hids
  subst hmask
  rw [hrun] at hrun2
  injection hrun2 with hout
  subst hout
  have hsle : s ≤ 768 := by
    have hcases : s = 768 ∨ s = 512 ∨ s = 256 ∨ s = 128 := by
      simpa [VALID_DIMENSIONS] using hs
    rcases hcases with rfl | rfl | rfl | rfl <;> norm_num
  rw [hv, hv2]
  exact normalize_take_normalize _ s 768 hsle

/-- Witness for C1 at a concrete embedder, text and size. -/
theorem matryoshka_consistency_witness :
    oneTokenEmbedder.embed [1] 768 = .ok [(0:ℝ)] ∧
    oneTokenEmbedder.embed [1] 512 = .ok [(0:ℝ)] ∧
    [(0:ℝ)] = Embedder.normalize (([(0:ℝ)]).take 512) := by
  have h768 : oneTokenEmbedder.embed [1] 768 = .ok [(0:ℝ)] :=
    oneTokenEmbedder_embed 768 (by decide)
  have h512 : oneTokenEmbedder.embed [1] 512 = .ok [(0:ℝ)] :=
    oneTokenEmbedder_embed 512 (by decide)
  exact ⟨h768, h512,
    matryoshka_consistency oneTokenEmbedder [1] 512 [0] [0] (by decide) h768 h512⟩

/-- C3. The normalization step computes the L2 norm of the truncated
vector; if the norm is positive it divides every element by that norm and
the result has L2 norm exactly 1 (in the real-number model, i.e. 1.0 within
floating-point tolerance); if the norm is zero the vector is returned
unchanged, and it is then the all-zero vector. -/
theorem normalize_postcondition (e : List ℝ) :
    (0 < l2norm e →
      Embedder.normalize e = (e.map fun x => x / l2norm e) ∧
        l2norm (Embedder.normalize e) = 1) ∧
    (l2norm e = 0 → Embedder.normalize e = e ∧ ∀ x ∈ e, x = 0) := by
  constructor
  · intro h
    exact ⟨normalize_of_pos h, l2norm_normalize h⟩
  · intro h
    exact ⟨normalize_of_zero h, (l2norm_eq_zero_iff e).mp h⟩

/-- Witness for C3 at the concrete vector `[3, 4]` (norm 5). -/
theorem normalize_postcondition_witness :
    0 < l2norm [(3:ℝ), 4] ∧ l2norm (Embedder.normalize [(3:ℝ), 4]) = 1 := by
  have hsum : (([(3:ℝ), 4].map fun x => x * x)).sum = 25 := by norm_num
  have h5 : l2norm [(3:ℝ), 4] = 5 := by
    rw [l2norm, hsum, show (25:ℝ) = 5 ^ 2 by norm_num,
      Real.sqrt_sq (by norm_num : (0:ℝ) ≤ 5)]
  have hpos : 0 < l2norm [(3:ℝ), 4] := by
    rw [h5]
    norm_num
  exact ⟨hpos, ((normalize_postcondition [3, 4]).1 hpos).2⟩

/-! ## C2: masked mean pooling against the spec's description -/

/-- The pooling algorithm exactly as the spec words it (spec §4.5 and claim
C2): zero each token row whose mask entry is not 1, sum the rows along the
sequence axis, and divide by the number of mask-1 entries — skipping the
division and returning the raw sum when that count is 0. -/
noncomputable def specMeanPooling (n d : ℕ) (hidden_states : ℕ → ℕ → ℕ → ℝ)
    (mask : List ℤ) : List ℝ :=
  let zeroed : ℕ → ℕ → ℝ := fun i j =>
    if mask.getD i 0 = 1 then hidden_states 0 i j else 0
  let s : Fin d → ℝ := fun j => ∑ i ∈ Finset.range n, zeroed i j
  let count : ℕ := mask.count 1
  if count = 0 then List.ofFn s else List.ofFn fun j => s j / count

lemma sum_intCast_eq_count (l : List ℤ) (h : ∀ x ∈ l, x = 0 ∨ x = 1) :
    (l.map fun x : ℤ => (x : ℝ)).sum = (l.count 1 : ℝ) := by
  induction l with
  | nil => simp
  | cons a t ih =>
    have ha := h a (List.mem_cons_self a t)
    have ht : ∀ x ∈ t, x = 0 ∨ x = 1 := fun x hx => h x (List.mem_cons_of_mem _ hx)
    rcases ha with rfl | rfl
    · simp [List.count_cons, ih ht]
    · simp [List.count_cons, ih ht]
      ring

/-- C2. For every hidden-state tensor of shape `(1, n, d)` and every
mask of length `n` with entries in `{0, 1}`, `mean_pooling` returns the
vector of length `d` obtained by zeroing each token row whose mask entry is
0, summing the rows along the sequence axis, and dividing by the number of
mask-1 entries; when that count is 0 the division is skipped and the raw
sum is returned rather than an error. -/
theorem mean_pooling_matches_spec (n d : ℕ) (H : ℕ → ℕ → ℕ → ℝ)
    (mask : List ℤ) (hlen : mask.length = n)
    (h01 : ∀ x ∈ mask, x = 0 ∨ x = 1) :
    (Embedder.mean_pooling n d H mask).length = d ∧
    Embedder.mean_pooling n d H mask = specMeanPooling n d H mask := by
  have hcount : (mask.map fun x : ℤ => (x : ℝ)).sum = (mask.count 1 : ℝ) :=
    sum_intCast_eq_count mask h01
  have hsum : ∀ j : ℕ,
      (∑ i ∈ Finset.range n, (mask.map fun x : ℤ => (x:ℝ)).getD i 0 * H 0 i j)
        = ∑ i ∈ Finset.range n, if mask.getD i 0 = 1 then H 0 i j else 0 := by
    intro j
    refine Finset.sum_congr rfl ?h
    intro i hi
    have hi' : i < mask.length := by
      rw [hlen]
      exact Finset.mem_range.mp hi
    have hmap : (mask.map fun x : ℤ => (x:ℝ)).getD i 0 = ((mask.getD i 0 : ℤ) : ℝ) := by
      rw [List.getD_eq_getElem _ _ (by simpa using hi'),
        List.getD_eq_getElem _ _ hi', List.getElem_map]
    rw [hmap]
    have hmem : mask.getD i 0 ∈ mask := by
      rw [List.getD_eq_getElem _ _ hi']
      exact List.getElem_mem _
    rcases h01 _ hmem with hx | hx
    · rw [hx]
      simp
    · rw [hx]
      simp
  constructor
  · rw [Embedder.mean_pooling]
    split
    · simp
    · simp
  · rw [Embedder.mean_pooling, specMeanPooling]
    by_cases hc : mask.count 1 = 0
    · rw [if_neg (by rw [gt_iff_lt, hcount]; simp [hc]), if_pos hc]
      congr 1
      funext j
      exact hsum j
    · rw [if_pos (by rw [gt_iff_lt, hcount]; exact_mod_cast Nat.pos_of_ne_zero hc),
        if_neg hc]
      congr 1
      funext j
      simp only []
      rw [hsum j.val, hcount]

/-- Witness for C2 at a concrete shape `(1, 2, 1)`, hidden states all 1 and
mask `[1, 0]`. -/
theorem mean_pooling_matches_spec_witness :
    (Embedder.mean_pooling 2 1 (fun _ _ _ => 1) [1, 0]).length = 1 ∧
    Embedder.mean_pooling 2 1 (fun _ _ _ => 1) [1, 0] =
      specMeanPooling 2 1 (fun _ _ _ => 1) [1, 0] :=
  mean_pooling_matches_spec 2 1 (fun _ _ _ => 1) [1, 0] rfl (by decide)

/-! ## Handler helper lemmas -/

/-- Lock recovery: whatever the lock state, the guard the handler proceeds
with is the shared embedder (`Ok(guard) => guard`,
`Err(poisoned) => poisoned.into_inner()`). -/
lemma handler_guard (E : Embedder) (st : LockState) :
    (match mutexLock E st with
      | .ok g => g
      | .poisonErr poisoned => poisoned) = E := by
  cases st <;> rfl

/-- Unfolding of `handlerOutcome` with the lock step resolved. -/
lemma handlerOutcome_eq (E : Embedder) (st : LockState) (req : EmbedRequest) :
    handlerOutcome E st req =
      if req.size ∈ VALID_DIMENSIONS then
        if req.text.isEmpty then .embedError .EmptyInput
        else if req.text.sum > MAX_TEXT_LENGTH then
          .embedError (.TextTooLong req.text.sum MAX_TEXT_LENGTH)
        else
          match E.embed req.text req.size with
          | .ok emb => .ok emb
          | .error e => .embedError e
      else .invalidSize req.size := by
  cases st <;> rfl

lemma mean_pooling_length (n d : ℕ) (H : ℕ → ℕ → ℕ → ℝ) (mask : List ℤ) :
    (Embedder.mean_pooling n d H mask).length = d := by
  rw [Embedder.mean_pooling]
  split
  · simp
  · simp

/-! ## C8: total client/server classification -/

/-- C8. The error classification is a total function on the closed error
set: the status is always 400 or 500, it is 400 exactly for client errors,
and the client errors are exactly the four kinds `InvalidDimension`,
`SequenceTooLong`, `EmptyInput` and `TextTooLong`. -/
theorem classification_total (e : EmbedError) :
    (e.status_code = 400 ∨ e.status_code = 500) ∧
    (e.status_code = 400 ↔ e.is_client_error = true) ∧
    (e.is_client_error = true ↔
      ((∃ sz valid, e = .InvalidDimension sz valid) ∨
       (∃ got mx, e = .SequenceTooLong got mx) ∨
       e = .EmptyInput ∨
       (∃ got mx, e = .TextTooLong got mx))) := by
  cases e <;> simp [EmbedError.status_code, EmbedError.is_client_error]

/-- Witness for C8 at the concrete error `EmptyInput`. -/
theorem classification_total_witness :
    (EmbedError.EmptyInput.status_code = 400 ∨
      EmbedError.EmptyInput.status_code = 500) ∧
    (EmbedError.EmptyInput.status_code = 400 ↔
      EmbedError.EmptyInput.is_client_error = true) ∧
    (EmbedError.EmptyInput.is_client_error = true ↔
      ((∃ sz valid, EmbedError.EmptyInput = .InvalidDimension sz valid) ∨
       (∃ got mx, EmbedError.EmptyInput = .SequenceTooLong got mx) ∨
       EmbedError.EmptyInput = .EmptyInput ∨
       (∃ got mx, EmbedError.EmptyInput = .TextTooLong got mx))) :=
  classification_total .EmptyInput

/-! ## C5: error-message exposure policy -/

/-- C5 counterexample: `Tokenization` is a server-class error (status 500),
yet its full detail is exposed in the production build's user message
instead of the generic internal-error message. -/
theorem tokenization_detail_counterexample :
    (EmbedError.Tokenization "boom").is_client_error = false ∧
    (EmbedError.Tokenization "boom").status_code = 500 ∧
    (EmbedError.Tokenization "boom").user_message false =
      "Failed to process text: boom" ∧
    ¬ (EmbedError.Tokenization "boom").user_message false =
        "An internal error occurred while processing your request" := by
  refine ⟨rfl, rfl, by decide, by decide⟩

/-- C5 (amended). Client-class errors expose their full detail (a message
independent of the build flavour); the server-class `Tokenization` error
also exposes its full detail in every build; every other server-class
error exposes only the generic message in production builds and its full
display string in development builds. -/
theorem message_exposure_policy (e : EmbedError) :
    (e.is_client_error = true →
      ∀ d₁ d₂ : Bool, e.user_message d₁ = e.user_message d₂) ∧
    (∀ msg d, (EmbedError.Tokenization msg).user_message d =
      "Failed to process text: " ++ msg) ∧
    (e.is_client_error = false → (∀ msg, e ≠ .Tokenization msg) →
      e.user_message false =
        "An internal error occurred while processing your request" ∧
      e.user_message true = e.displayString) := by
  refine ⟨?_, fun msg d => rfl, ?_⟩
  · intro hc d₁ d₂
    cases e <;> first
      | rfl
      | simp [EmbedError.is_client_error] at hc
  · intro hs hn
    cases e <;> first
      | exact absurd rfl (hn _)
      | exact ⟨rfl, rfl⟩
      | simp [EmbedError.is_client_error] at hs

/-- Witness for C5 (amended) at the concrete server error `Internal "x"`. -/
theorem message_exposure_policy_witness :
    (EmbedError.Internal "x").user_message false =
      "An internal error occurred while processing your request" ∧
    (EmbedError.Internal "x").user_message true =
      (EmbedError.Internal "x").displayString :=
  (message_exposure_policy (.Internal "x")).2.2 rfl
    (fun _ h => EmbedError.noConfusion h)

/-! ## C4: the EmptyInput error -/

/-- Helper: the handler maps an empty text with the default size 768 to the
`EmptyInput` error, whatever the embedder and lock state. -/
lemma handler_empty_768 (E : Embedder) (st : LockState) :
    handlerOutcome E st ⟨[], 768⟩ = .embedError .EmptyInput := by
  rw [handlerOutcome_eq, if_pos (by decide : (768:ℕ) ∈ VALID_DIMENSIONS)]
  rfl

/-- C4 counterexample: with empty text but the invalid size 500, the size
check fires first and the handler does not raise `EmptyInput`, although the
input text is empty. -/
theorem emptyInput_iff_counterexample :
    (⟨[], 500⟩ : EmbedRequest).text.isEmpty = true ∧
    handlerOutcome oneTokenEmbedder .healthy ⟨[], 500⟩ = .invalidSize 500 ∧
    ¬ handlerOutcome oneTokenEmbedder .healthy ⟨[], 500⟩ =
        .embedError .EmptyInput := by
  have h : handlerOutcome oneTokenEmbedder .healthy ⟨[], 500⟩ = .invalidSize 500 := by
    rw [handlerOutcome_eq, if_neg (by decide : ¬ (500:ℕ) ∈ VALID_DIMENSIONS)]
  refine ⟨rfl, h, ?_⟩
  rw [h]
  simp

/-- C4 (amended). A request with empty text and size 768 fails with
`EmptyInput`; in general the handler raises `EmptyInput` if and only if the
input text is empty AND the requested size is valid (an invalid size is
rejected first, by the size check). -/
theorem emptyInput_characterization (E : Embedder) (st : LockState)
    (req : EmbedRequest) :
    handlerOutcome E st ⟨[], 768⟩ = .embedError .EmptyInput ∧
    (handlerOutcome E st req = .embedError .EmptyInput ↔
      req.size ∈ VALID_DIMENSIONS ∧ req.text = []) := by
  refine ⟨handler_empty_768 E st, ?_, ?_⟩
  · intro h
    rw [handlerOutcome_eq] at h
    by_cases hsz : req.size ∈ VALID_DIMENSIONS
    · refine ⟨hsz, ?_⟩
      rw [if_pos hsz] at h
      by_cases hemp : req.text.isEmpty
      · exact List.isEmpty_iff.mp hemp
      · rw [if_neg hemp] at h
        by_cases hlong : req.text.sum > MAX_TEXT_LENGTH
        · rw [if_pos hlong] at h
          simp at h
        · rw [if_neg hlong] at h
          cases hemb : E.embed req.text req.size with
          | ok v =>
            rw [hemb] at h
            simp at h
          | error e =>
            rw [hemb] at h
            simp only [] at h
            simp only [HandlerOutcome.embedError.injEq] at h
            subst h
            rcases embed_error_cases _ _ _ _ hemb with
              ⟨_, _, h2⟩ | ⟨_, h2⟩ | ⟨_, _, h2⟩ | ⟨_, h2⟩ | ⟨_, h2⟩ <;> cases h2
    · rw [if_neg hsz] at h
      simp at h
  · rintro ⟨hsz, hemp⟩
    rw [handlerOutcome_eq, if_pos hsz, if_pos (by rw [hemp]; rfl)]

/-- Witness for C4 (amended) at a concrete embedder and request. -/
theorem emptyInput_characterization_witness :
    handlerOutcome oneTokenEmbedder .healthy ⟨[], 768⟩ =
      .embedError .EmptyInput ∧
    ((768:ℕ) ∈ VALID_DIMENSIONS ∧ ([] : Text) = []) :=
  ⟨(emptyInput_characterization oneTokenEmbedder .healthy ⟨[], 768⟩).1,
    (emptyInput_characterization oneTokenEmbedder .healthy ⟨[], 768⟩).2.mp
      (emptyInput_characterization oneTokenEmbedder .healthy ⟨[], 768⟩).1⟩

/-! ## C9: poisoned-lock recovery -/

/-- C9. The handler recovers a poisoned lock and proceeds: its outcome is
the same as with a healthy lock, and it never surfaces the `MutexPoisoned`
error — no request fails solely because a previous holder panicked. -/
theorem poisoned_lock_recovered (E : Embedder) (st : LockState)
    (req : EmbedRequest) :
    handlerOutcome E st req = handlerOutcome E .healthy req ∧
    handlerOutcome E st req ≠ .embedError .MutexPoisoned := by
  constructor
  · rw [handlerOutcome_eq, handlerOutcome_eq]
  · intro h
    rw [handlerOutcome_eq] at h
    by_cases hsz : req.size ∈ VALID_DIMENSIONS
    · rw [if_pos hsz] at h
      by_cases hemp : req.text.isEmpty
      · rw [if_pos hemp] at h
        simp at h
      · rw [if_neg hemp] at h
        by_cases hlong : req.text.sum > MAX_TEXT_LENGTH
        · rw [if_pos hlong] at h
          simp at h
        · rw [if_neg hlong] at h
          cases hemb : E.embed req.text req.size with
          | ok v =>
            rw [hemb] at h
            simp at h
          | error e =>
            rw [hemb] at h
            simp only [] at h
            simp only [HandlerOutcome.embedError.injEq] at h
            subst h
            rcases embed_error_cases _ _ _ _ hemb with
              ⟨_, _, h2⟩ | ⟨_, h2⟩ | ⟨_, _, h2⟩ | ⟨_, h2⟩ | ⟨_, h2⟩ <;> cases h2
    · rw [if_neg hsz] at h
      simp at h

/-- Witness for C9 at a concrete embedder, poisoned lock and request. -/
theorem poisoned_lock_recovered_witness :
    handlerOutcome oneTokenEmbedder .poisoned ⟨[1], 768⟩ =
      handlerOutcome oneTokenEmbedder .healthy ⟨[1], 768⟩ ∧
    handlerOutcome oneTokenEmbedder .poisoned ⟨[1], 768⟩ ≠
      .embedError .MutexPoisoned :=
  poisoned_lock_recovered oneTokenEmbedder .poisoned ⟨[1], 768⟩

/-! ## C6: the text-length bound counts bytes, not characters -/

/-- C6, evaluation of the code at the failing inputs: a text of 100,001
two-byte characters is rejected with `got = 200002` (the UTF-8 byte count),
not the character count 100,001 the spec and the code's own comments
promise; and a text of 60,000 three-byte characters — within the 100,000
character limit — is nonetheless rejected, because its 180,000 bytes exceed
the limit. -/
theorem textTooLong_counts_bytes :
    handlerOutcome oneTokenEmbedder .healthy ⟨List.replicate 100001 2, 768⟩ =
      .embedError (.TextTooLong 200002 100000) ∧
    (List.replicate 100001 2 : Text).length = 100001 ∧
    handlerOutcome oneTokenEmbedder .healthy ⟨List.replicate 60000 3, 768⟩ =
      .embedError (.TextTooLong 180000 100000) ∧
    (List.replicate 60000 3 : Text).length = 60000 := by
  have hone : ∀ n x : ℕ, n ≠ 0 → (List.replicate n x : Text).isEmpty = false := by
    intro n x hn
    rw [Bool.eq_false_iff]
    intro h
    rw [List.isEmpty_iff] at h
    exact hn ((List.replicate_eq_nil_iff x).mp h)
  refine ⟨?_, by rw [List.length_replicate], ?_, by rw [List.length_replicate]⟩
  · rw [handlerOutcome_eq, if_pos (by decide : (768:ℕ) ∈ VALID_DIMENSIONS),
      if_neg (by rw [hone 100001 2 (by norm_num)]; norm_num),
      if_pos (by rw [List.sum_replicate, smul_eq_mul]; norm_num [MAX_TEXT_LENGTH]),
      List.sum_replicate, smul_eq_mul]
    norm_num [MAX_TEXT_LENGTH]
  · rw [handlerOutcome_eq, if_pos (by decide : (768:ℕ) ∈ VALID_DIMENSIONS),
      if_neg (by rw [hone 60000 3 (by norm_num)]; norm_num),
      if_pos (by rw [List.sum_replicate, smul_eq_mul]; norm_num [MAX_TEXT_LENGTH]),
      List.sum_replicate, smul_eq_mul]
    norm_num [MAX_TEXT_LENGTH]

/-! ## C7: sequence-length check after tokenization, before inference -/

/-- C7. The sequence-length check runs on the tokenization result: whenever
tokenization yields more than 8,192 tokens (and the requested size is
valid, so the pipeline reaches tokenization), `embed` fails with
`SequenceTooLong` carrying the actual and maximum lengths — and it does so
for EVERY possible inference function, i.e. no inference call is made. -/
theorem sequence_length_check (E : Embedder) (t : Text) (s : ℕ)
    (ids mask : List ℤ) (hs : s ∈ VALID_DIMENSIONS)
    (htok : E.tokenize t = .ok (ids, mask))
    (hlen : ids.length > MAX_SEQUENCE_LENGTH) :
    ∀ run2 : List ℤ → List ℤ → Except String RunOutput,
      (Embedder.mk E.tokenize run2).embed t s =
        .error (.SequenceTooLong ids.length MAX_SEQUENCE_LENGTH) := by
  intro run2
  rw [Embedder.embed, if_pos hs]
  simp only [htok]
  rw [if_pos hlen]

/-- Witness for C7: a tokenizer producing 8,193 tokens makes `embed` fail
with `SequenceTooLong 8193 8192` even though the inference function only
errors. -/
noncomputable def longTokenizerEmbedder : Embedder where
  tokenize := fun _ => .ok (List.replicate 8193 0, List.replicate 8193 1)
  run := fun _ _ => .error "never reached"

/-- Witness theorem for C7. -/
theorem sequence_length_check_witness :
    longTokenizerEmbedder.embed [1] 768 =
      .error (.SequenceTooLong 8193 8192) := by
  have h := sequence_length_check longTokenizerEmbedder [1] 768
    (List.replicate 8193 0) (List.replicate 8193 1) (by decide) rfl
    (by rw [List.length_replicate]; norm_num [MAX_SEQUENCE_LENGTH])
    longTokenizerEmbedder.run
  rw [List.length_replicate] at h
  exact h

/-! ## C10: output length and the response's size field -/

/-- C10. A successful embed call returns exactly `min size hidden_dim`
elements (truncation never pads), and the success response's `size` field
is the actual length of the returned vector, not the requested size. -/
theorem embed_length_and_response_size (E : Embedder) (st : LockState)
    (debug : Bool) (req : EmbedRequest) (ids mask : List ℤ) (out : RunOutput)
    (emb : List ℝ)
    (htok : E.tokenize req.text = .ok (ids, mask))
    (hrun : E.run ids mask = .ok out)
    (h : handlerOutcome E st req = .ok emb) :
    emb.length = min req.size out.hidden_dim ∧
    functionHandler E st debug req = .okJson ⟨emb, emb.length⟩ := by
  have h0 := h
  have hembed : E.embed req.text req.size = .ok emb := by
    rw [handlerOutcome_eq] at h
    by_cases hsz : req.size ∈ VALID_DIMENSIONS
    · rw [if_pos hsz] at h
      by_cases hemp : req.text.isEmpty
      · rw [if_pos hemp] at h
        simp at h
      · rw [if_neg hemp] at h
        by_cases hlong : req.text.sum > MAX_TEXT_LENGTH
        · rw [if_pos hlong] at h
          simp at h
        · rw [if_neg hlong] at h
          cases hemb : E.embed req.text req.size with
          | ok v =>
            rw [hemb] at h
            simp only [] at h
            simp only [HandlerOutcome.ok.injEq] at h
            rw [h]
          | error e =>
            rw [hemb] at h
            simp at h
    · rw [if_neg hsz] at h
      simp at h
  obtain ⟨-, ids2, mask2, out2, htok2, -, hrun2, -, hv⟩ :=
    embed_ok_elim E req.text req.size emb hembed
  rw [htok] at htok2
  injection htok2 with hp
  injection hp with h1 h2
  subst h1
  subst h2
  rw [hrun] at hrun2
  injection hrun2 with h3
  subst h3
  constructor
  · rw [hv, normalize_length, List.length_take, mean_pooling_length]
  · rw [functionHandler, h0]

/-- Witness helper: the one-token embedder drives the handler to success. -/
lemma oneToken_handler_ok :
    handlerOutcome oneTokenEmbedder .healthy ⟨[1], 768⟩ = .ok [(0:ℝ)] := by
  rw [handlerOutcome_eq, if_pos (by decide : (768:ℕ) ∈ VALID_DIMENSIONS),
    if_neg (by simp), if_neg (by norm_num [MAX_TEXT_LENGTH]),
    oneTokenEmbedder_embed 768 (by decide)]

/-- Witness for C10: hidden dimension 1, requested size 768 — the returned
vector has min 768 1 = 1 element and the response reports size 1, not the
requested 768. -/
theorem embed_length_and_response_size_witness :
    ([(0:ℝ)]).length = min 768 (⟨1, 1, 1, [0]⟩ : RunOutput).hidden_dim ∧
    functionHandler oneTokenEmbedder .healthy false ⟨[1], 768⟩ =
      .okJson ⟨[(0:ℝ)], ([(0:ℝ)]).length⟩ :=
  embed_length_and_response_size oneTokenEmbedder .healthy false ⟨[1], 768⟩
    [0] [1] ⟨1, 1, 1, [0]⟩ [0] rfl rfl oneToken_handler_ok

end RustEmbeddingLambda
